import Mathlib

/-!
Verification of the `s3-tidy` scan-and-report loop (`main.go`, `runScan`).

The Go function is embedded shallowly: the AWS SDK's pointer-valued record
fields (`Key`, `LastModified`, `Size` of `types.Object`) become `Option`
fields, timestamps become integers (with `time.Time.Before` as `<`),
`float64` arithmetic of the summary becomes exact rational arithmetic, the
paginator becomes a list of page results (`Except.error` marking a failed
`NextPage`), and the outcome of each successive `DeleteObject` call is
supplied by an oracle indexed by the number of delete calls issued so far.
Every output line and every delete invocation is recorded in an effect
trace, and the three ways the Go process can stop (normal return,
`log.Fatalf`, nil-pointer panic) become the three constructors of
`ScanOut`.
-/

namespace S3Tidy

/-- An object record of a listing page.  In the Go SDK all three fields are
pointers, hence `Option`; a `none` models a nil pointer. -/
structure S3Object where
  key : Option String
  lastModified : Option Int
  size : Option Int
deriving Repr, DecidableEq

/-- One observable effect of the scan: an output line, or a `DeleteObject`
call (with the outcome the backend returned for it). -/
inductive Effect where
  | scanHeader (bucket : String) (cutoff : Int) (days : Int)
  | dryRunLine (key : String) (lastModified : Int) (sizeMB : ℚ)
  | deleteCall (key : Option String) (ok : Bool)
  | deletedLine (key : String)
  | warnLine (key : String)
  | fatalMsg (msg : String)
  | separatorLine
  | reportSummary (staleCount : Nat) (gb savings : ℚ)
  | dryRunSummary (staleCount : Nat) (gb : ℚ)
  | cleanupSummary (deletedCount : Nat)
deriving Repr, DecidableEq

/-- The mutable accumulators of `runScan` (`staleCount`, `totalSize`,
`deletedCount`), together with the number of delete calls issued so far
(the oracle index) and the effect trace. -/
structure ScanState where
  staleCount : Nat
  totalSize : Int
  deletedCount : Nat
  delCalls : Nat
  trace : List Effect
deriving Repr, DecidableEq

/-- Result of processing one record or one page: either the updated state,
or a nil-pointer panic (carrying the state at the moment of the panic). -/
inductive StepRes where
  | ok (st : ScanState)
  | panicked (st : ScanState)
deriving Repr, DecidableEq

/-- The body of the inner loop of `runScan` (main.go lines 89–122) for a
single record `obj`.  `obj.LastModified.Before(cutoff)` dereferences the
timestamp pointer with no nil check; in the dry-run and deletion branches
`*obj.Key` is dereferenced with no nil check (in the deletion branch the
`DeleteObject` call itself only forwards the pointer, and the dereference
happens afterwards in the success/failure print); only `obj.Size` is
guarded by an explicit nil test. -/
def processObject (isDryRun isReport : Bool) (del : Nat → Bool) (cutoff : Int)
    (st : ScanState) (obj : S3Object) : StepRes :=
  match obj.lastModified with
  | none => .panicked st
  | some lm =>
    if lm < cutoff then
      let st1 : ScanState := { st with staleCount := st.staleCount + 1 }
      let st2 : ScanState :=
        match obj.size with
        | some sz => { st1 with totalSize := st1.totalSize + sz }
        | none => st1
      if isReport then .ok st2
      else if isDryRun then
        match obj.key with
        | none => .panicked st2
        | some k =>
          let sizeMB : ℚ :=
            match obj.size with
            | some sz => ((sz : ℚ) / 1024) / 1024
            | none => 0
          .ok { st2 with trace := st2.trace ++ [.dryRunLine k lm sizeMB] }
      else
        let ok := del st2.delCalls
        let st3 : ScanState := { st2 with
          delCalls := st2.delCalls + 1,
          trace := st2.trace ++ [.deleteCall obj.key ok] }
        match obj.key with
        | none => .panicked st3
        | some k =>
          if ok then
            .ok { st3 with deletedCount := st3.deletedCount + 1,
                           trace := st3.trace ++ [.deletedLine k] }
          else
            .ok { st3 with trace := st3.trace ++ [.warnLine k] }
    else .ok st

/-- The `for _, obj := range page.Contents` loop over one page. -/
def processPage (isDryRun isReport : Bool) (del : Nat → Bool) (cutoff : Int)
    (st : ScanState) : List S3Object → StepRes
  | [] => .ok st
  | obj :: rest =>
    match processObject isDryRun isReport del cutoff st obj with
    | .ok st1 => processPage isDryRun isReport del cutoff st1 rest
    | .panicked st1 => .panicked st1

/-- How a scan run ends: normal return, `log.Fatalf` (process terminated
with a diagnostic, no summary), or a nil-pointer panic. -/
inductive ScanOut where
  | done (st : ScanState)
  | fatal (st : ScanState)
  | panicked (st : ScanState)
deriving Repr, DecidableEq

/-- The effect trace of a finished (or aborted) run. -/
def ScanOut.trace : ScanOut → List Effect
  | .done st => st.trace
  | .fatal st => st.trace
  | .panicked st => st.trace

/-- The pagination loop (main.go lines 82–123): a failed `NextPage` hits
`log.Fatalf` and terminates the run at once. -/
def runPages (isDryRun isReport : Bool) (del : Nat → Bool) (cutoff : Int)
    (st : ScanState) : List (Except String (List S3Object)) → ScanOut
  | [] => .done st
  | .error e :: _ =>
    .fatal { st with trace := st.trace ++ [.fatalMsg ("Failed to list objects: " ++ e)] }
  | .ok objs :: rest =>
    match processPage isDryRun isReport del cutoff st objs with
    | .ok st1 => runPages isDryRun isReport del cutoff st1 rest
    | .panicked st1 => .panicked st1

/-- `const pricePerGB = 0.023` (main.go line 25), as an exact rational. -/
def pricePerGB : ℚ := 23 / 1000

/-- `sizeInGB := float64(totalSize) / 1024 / 1024 / 1024` (main.go line
130), with `float64` modelled by exact rational arithmetic. -/
def sizeInGB (totalSize : Int) : ℚ := (((totalSize : ℚ) / 1024) / 1024) / 1024

/-- `estimatedSavings := sizeInGB * pricePerGB` (main.go line 131). -/
def estimatedSavings (totalSize : Int) : ℚ := sizeInGB totalSize * pricePerGB

/-- Rounding to 4 decimal places, as the `%.4f` format verbs do. -/
def round4 (x : ℚ) : Int := round (x * 10000)

/-- The summary block of `runScan` (main.go lines 126–151): separator, then
exactly one of the three mutually exclusive summaries. -/
def summarize (isDryRun isReport : Bool) (st : ScanState) : ScanState :=
  let st1 : ScanState := { st with trace := st.trace ++ [.separatorLine] }
  let gb := sizeInGB st1.totalSize
  if isReport then
    { st1 with trace := st1.trace ++ [.reportSummary st1.staleCount gb (estimatedSavings st1.totalSize)] }
  else if isDryRun then
    { st1 with trace := st1.trace ++ [.dryRunSummary st1.staleCount gb] }
  else
    { st1 with trace := st1.trace ++ [.cleanupSummary st1.deletedCount] }

/-- `cutoff := time.Now().AddDate(0, 0, -days)` (main.go line 71), with
time measured in days. -/
def cutoffOf (now days : Int) : Int := now - days

/-- The whole of `runScan` (main.go lines 61–152).  `configErr = some e`
models a failed `config.LoadDefaultConfig`, which hits `log.Fatalf` before
any page is requested. -/
def runScan (bucket : String) (isDryRun isReport : Bool) (del : Nat → Bool)
    (now days : Int) (configErr : Option String)
    (pages : List (Except String (List S3Object))) : ScanOut :=
  match configErr with
  | some e =>
    .fatal { staleCount := 0, totalSize := 0, deletedCount := 0, delCalls := 0,
             trace := [.fatalMsg ("Unable to load SDK config: " ++ e)] }
  | none =>
    let cutoff := cutoffOf now days
    let st0 : ScanState :=
      { staleCount := 0, totalSize := 0, deletedCount := 0, delCalls := 0,
        trace := [.scanHeader bucket cutoff days] }
    match runPages isDryRun isReport del cutoff st0 pages with
    | .done st => .done (summarize isDryRun isReport st)
    | .fatal st => .fatal st
    | .panicked st => .panicked st

/-- Process exit code of each outcome: normal return of `main` exits 0,
`log.Fatalf` calls `os.Exit(1)`, a Go runtime panic exits 2. -/
def exitCode : ScanOut → Nat
  | .done _ => 0
  | .fatal _ => 1
  | .panicked _ => 2

/-- Recognises a `DeleteObject` invocation in the trace. -/
def Effect.isDeleteCall : Effect → Bool
  | .deleteCall _ _ => true
  | _ => false

/-- Recognises a failed `DeleteObject` invocation in the trace. -/
def Effect.isFailedDelete : Effect → Bool
  | .deleteCall _ ok => !ok
  | _ => false

/-- Recognises a `[DRY RUN] Would delete` output line. -/
def Effect.isDryRunLine : Effect → Bool
  | .dryRunLine _ _ _ => true
  | _ => false

/-- Recognises any of the three summary blocks. -/
def Effect.isSummaryLine : Effect → Bool
  | .reportSummary _ _ _ => true
  | .dryRunSummary _ _ => true
  | .cleanupSummary _ => true
  | _ => false

/-- The sizes of the stale records of a listing that carry a non-null
size, in order. -/
def staleSizes (cutoff : Int) (objs : List S3Object) : List Int :=
  objs.filterMap fun o =>
    match o.lastModified with
    | some lm => if lm < cutoff then o.size else none
    | none => none

/-- How many records of a listing are stale. -/
def countStale (cutoff : Int) (objs : List S3Object) : Nat :=
  (objs.filter fun o =>
    match o.lastModified with
    | some lm => decide (lm < cutoff)
    | none => false).length

/-- The nil-pointer precondition for one record: its last-modified pointer
is non-nil, and, outside report-only mode, if it is stale its key pointer
is non-nil as well. -/
def recordSafe (isReport : Bool) (cutoff : Int) (obj : S3Object) : Bool :=
  match obj.lastModified with
  | none => false
  | some lm => isReport || !(decide (lm < cutoff)) || obj.key.isSome

/-- The nil-pointer precondition for one page result. -/
def pageSafe (isReport : Bool) (cutoff : Int) : Except String (List S3Object) → Bool
  | .error _ => true
  | .ok objs => objs.all (recordSafe isReport cutoff)

/-- The state carried by a step result, whether it succeeded or panicked. -/
def StepRes.state : StepRes → ScanState
  | .ok st => st
  | .panicked st => st

/-- What one stale record contributes to the byte total: its size when the
size is non-null, otherwise `0`. -/
def staleSizeContrib (cutoff : Int) (o : S3Object) : Int :=
  match o.lastModified with
  | some lm => if lm < cutoff then o.size.getD 0 else 0
  | none => 0

/-- A record whose last-modified timestamp is at or after the cutoff is
skipped entirely: the state, counters and trace are returned unchanged. -/
lemma processObject_fresh (isDryRun isReport : Bool) (del : Nat → Bool) (cutoff : Int)
    (st : ScanState) (obj : S3Object) (lm : Int)
    (h : obj.lastModified = some lm) (hle : cutoff ≤ lm) :
    processObject isDryRun isReport del cutoff st obj = .ok st := by
  simp [processObject, h, not_lt.mpr hle]

/-- A successfully processed stale record increments the stale count by
exactly one. -/
lemma processObject_stale_count (isDryRun isReport : Bool) (del : Nat → Bool) (cutoff : Int)
    (st : ScanState) (obj : S3Object) (lm : Int)
    (h : obj.lastModified = some lm) (hlt : lm < cutoff)
    (st1 : ScanState) (hok : processObject isDryRun isReport del cutoff st obj = .ok st1) :
    st1.staleCount = st.staleCount + 1 := by
  simp only [processObject, h, if_pos hlt] at hok
  repeat' split at hok
  all_goals cases hok
  all_goals rfl

/-- In report-only mode a record never changes the trace: no line is
printed and no delete call is issued, whether the step succeeds or
panics. -/
lemma processObject_report_trace (isDryRun : Bool) (del : Nat → Bool) (cutoff : Int)
    (st : ScanState) (obj : S3Object) :
    ((processObject isDryRun true del cutoff st obj).state).trace = st.trace := by
  unfold processObject
  repeat' split
  all_goals first | rfl | simp_all [StepRes.state]

/-- In dry-run mode (report off) a record never appends a delete call to
the trace. -/
lemma processObject_dry_no_delete (del : Nat → Bool) (cutoff : Int)
    (st : ScanState) (obj : S3Object) :
    ((processObject true false del cutoff st obj).state).trace.countP Effect.isDeleteCall
      = st.trace.countP Effect.isDeleteCall := by
  unfold processObject
  repeat' split
  all_goals simp_all [StepRes.state, List.countP_append, List.countP_cons, Effect.isDeleteCall]

/-- A record step never appends a summary line to the trace, in any
mode. -/
lemma processObject_no_summary (isDryRun isReport : Bool) (del : Nat → Bool) (cutoff : Int)
    (st : ScanState) (obj : S3Object) :
    ((processObject isDryRun isReport del cutoff st obj).state).trace.countP Effect.isSummaryLine
      = st.trace.countP Effect.isSummaryLine := by
  unfold processObject
  repeat' split
  all_goals try cases hdel : del st.delCalls
  all_goals simp_all [StepRes.state, List.countP_append, List.countP_cons, Effect.isSummaryLine]

/-- Lifts a per-record trace-count preservation property to a whole
page. -/
lemma processPage_state_countP (isDryRun isReport : Bool) (del : Nat → Bool) (cutoff : Int)
    (p : Effect → Bool)
    (hstep : ∀ st obj, ((processObject isDryRun isReport del cutoff st obj).state).trace.countP p
      = st.trace.countP p)
    (objs : List S3Object) : ∀ st : ScanState,
    ((processPage isDryRun isReport del cutoff st objs).state).trace.countP p
      = st.trace.countP p := by
  induction objs with
  | nil => intro st; rfl
  | cons obj rest ih =>
    intro st
    have hst := hstep st obj
    cases hpr : processObject isDryRun isReport del cutoff st obj with
    | ok st1 =>
      rw [hpr] at hst
      simp only [processPage, hpr]
      rw [ih st1]
      exact hst
    | panicked st1 =>
      rw [hpr] at hst
      simp only [processPage, hpr]
      exact hst

/-- Lifts a per-record trace-count preservation property through the whole
pagination loop, whatever the outcome. -/
lemma runPages_state_countP (isDryRun isReport : Bool) (del : Nat → Bool) (cutoff : Int)
    (p : Effect → Bool)
    (hstep : ∀ st obj, ((processObject isDryRun isReport del cutoff st obj).state).trace.countP p
      = st.trace.countP p)
    (hfatal : ∀ m, p (.fatalMsg m) = false)
    (pages : List (Except String (List S3Object))) : ∀ st : ScanState,
    ((runPages isDryRun isReport del cutoff st pages).trace).countP p
      = st.trace.countP p := by
  induction pages with
  | nil => intro st; rfl
  | cons page rest ih =>
    intro st
    cases page with
    | error e =>
      simp [runPages, ScanOut.trace, List.countP_append, List.countP_cons, hfatal]
    | ok objs =>
      have hpg := processPage_state_countP isDryRun isReport del cutoff p hstep objs st
      cases hpr : processPage isDryRun isReport del cutoff st objs with
      | ok st1 =>
        rw [hpr] at hpg
        simp only [runPages, hpr]
        rw [ih st1]
        exact hpg
      | panicked st1 =>
        rw [hpr] at hpg
        simp only [runPages, hpr, ScanOut.trace]
        exact hpg

/-- `summarize` does not change the counters. -/
lemma summarize_counters (isDryRun isReport : Bool) (st : ScanState) :
    (summarize isDryRun isReport st).staleCount = st.staleCount ∧
    (summarize isDryRun isReport st).totalSize = st.totalSize ∧
    (summarize isDryRun isReport st).deletedCount = st.deletedCount := by
  unfold summarize
  repeat' split
  all_goals exact ⟨rfl, rfl, rfl⟩

/-- `summarize` only appends summary and separator lines, so any count of
other effects is unchanged. -/
lemma summarize_countP (p : Effect → Bool)
    (h1 : p .separatorLine = false)
    (h2 : ∀ n g s, p (.reportSummary n g s) = false)
    (h3 : ∀ n g, p (.dryRunSummary n g) = false)
    (h4 : ∀ n, p (.cleanupSummary n) = false)
    (isDryRun isReport : Bool) (st : ScanState) :
    (summarize isDryRun isReport st).trace.countP p = st.trace.countP p := by
  unfold summarize
  repeat' split
  all_goals simp [List.countP_append, List.countP_cons, h1, h2, h3, h4]

/-- In dry-run mode (report off), a successful record step either leaves
stale count and trace unchanged (fresh record) or increments the stale
count and appends exactly one `[DRY RUN]` line (stale record). -/
lemma processObject_dry_delta (del : Nat → Bool) (cutoff : Int)
    (st st1 : ScanState) (obj : S3Object)
    (hok : processObject true false del cutoff st obj = .ok st1) :
    (st1.staleCount = st.staleCount ∧ st1.trace = st.trace) ∨
    ∃ k lm mb, st1.staleCount = st.staleCount + 1 ∧
      st1.trace = st.trace ++ [.dryRunLine k lm mb] := by
  rcases obj with ⟨ko, lmo, szo⟩
  rcases lmo with _ | lm
  · simp [processObject] at hok
  · by_cases hlt : lm < cutoff
    · rcases ko with _ | k
      · rcases szo with _ | sz <;> simp [processObject, hlt] at hok
      · rcases szo with _ | sz <;> simp [processObject, hlt] at hok <;> subst hok
        · exact Or.inr ⟨k, lm, 0, by simp, by simp⟩
        · exact Or.inr ⟨k, lm, ((sz : ℚ) / 1024) / 1024, by simp, by simp⟩
    · simp [processObject, hlt] at hok
      subst hok
      exact Or.inl ⟨rfl, rfl⟩

/-- In deletion mode, a successful record step either leaves everything
unchanged (fresh record) or counts one stale record, issues exactly one
delete call and, depending on its outcome, either counts the deletion and
prints the confirmation or prints the warning naming the key. -/
lemma processObject_del_delta (del : Nat → Bool) (cutoff : Int)
    (st st1 : ScanState) (obj : S3Object)
    (hok : processObject false false del cutoff st obj = .ok st1) :
    (st1.staleCount = st.staleCount ∧ st1.deletedCount = st.deletedCount ∧
      st1.trace = st.trace) ∨
    ∃ k, st1.staleCount = st.staleCount + 1 ∧
      ((st1.deletedCount = st.deletedCount + 1 ∧
          st1.trace = st.trace ++ [.deleteCall (some k) true, .deletedLine k]) ∨
       (st1.deletedCount = st.deletedCount ∧
          st1.trace = st.trace ++ [.deleteCall (some k) false, .warnLine k])) := by
  rcases obj with ⟨ko, lmo, szo⟩
  rcases lmo with _ | lm
  · simp [processObject] at hok
  · by_cases hlt : lm < cutoff
    · rcases ko with _ | k
      · rcases szo with _ | sz <;> simp [processObject, hlt] at hok
      · rcases szo with _ | sz <;> cases hdel : del st.delCalls <;>
          simp [processObject, hlt, hdel] at hok <;>
          subst hok
        · exact Or.inr ⟨k, by simp, Or.inr ⟨by simp, by simp⟩⟩
        · exact Or.inr ⟨k, by simp, Or.inl ⟨by simp, by simp⟩⟩
        · exact Or.inr ⟨k, by simp, Or.inr ⟨by simp, by simp⟩⟩
        · exact Or.inr ⟨k, by simp, Or.inl ⟨by simp, by simp⟩⟩
    · simp [processObject, hlt] at hok
      subst hok
      exact Or.inl ⟨rfl, rfl, rfl⟩

/-- Lifts preservation of a state invariant from one record to a page. -/
lemma processPage_inv (isDryRun isReport : Bool) (del : Nat → Bool) (cutoff : Int)
    (P : ScanState → Prop)
    (hstep : ∀ st st1 obj, processObject isDryRun isReport del cutoff st obj = .ok st1 →
      P st → P st1)
    (objs : List S3Object) : ∀ st st1,
    processPage isDryRun isReport del cutoff st objs = .ok st1 → P st → P st1 := by
  induction objs with
  | nil => intro st st1 h hP; cases h; exact hP
  | cons obj rest ih =>
    intro st st1 h hP
    simp only [processPage] at h
    cases hpr : processObject isDryRun isReport del cutoff st obj with
    | ok st2 => rw [hpr] at h; exact ih st2 st1 h (hstep st st2 obj hpr hP)
    | panicked st2 => rw [hpr] at h; cases h

/-- Lifts preservation of a state invariant from one record to the whole
pagination loop, for runs that complete normally. -/
lemma runPages_inv (isDryRun isReport : Bool) (del : Nat → Bool) (cutoff : Int)
    (P : ScanState → Prop)
    (hstep : ∀ st st1 obj, processObject isDryRun isReport del cutoff st obj = .ok st1 →
      P st → P st1)
    (pages : List (Except String (List S3Object))) : ∀ st st1,
    runPages isDryRun isReport del cutoff st pages = .done st1 → P st → P st1 := by
  induction pages with
  | nil => intro st st1 h hP; cases h; exact hP
  | cons page rest ih =>
    intro st st1 h hP
    cases page with
    | error e => simp only [runPages] at h; cases h
    | ok objs =>
      simp only [runPages] at h
      cases hpr : processPage isDryRun isReport del cutoff st objs with
      | ok st2 =>
        rw [hpr] at h
        exact ih st2 st1 h (processPage_inv isDryRun isReport del cutoff P hstep objs st st2 hpr hP)
      | panicked st2 => rw [hpr] at h; cases h

/-- C1: a record is classified stale exactly when its last-modified
timestamp is strictly before the cutoff.  A record at or after the cutoff
is skipped: the step returns the state — counters, delete-call count and
trace — entirely unchanged, so a fresh record never contributes to the
stale count, the byte total, a deletion or dry-run output; a successfully
processed stale record increments the stale count by exactly one. -/
theorem claim1_stale_classification (isDryRun isReport : Bool) (del : Nat → Bool)
    (cutoff : Int) (st : ScanState) (obj : S3Object) (lm : Int)
    (h : obj.lastModified = some lm) :
    (cutoff ≤ lm → processObject isDryRun isReport del cutoff st obj = .ok st) ∧
    (lm < cutoff → ∀ st1, processObject isDryRun isReport del cutoff st obj = .ok st1 →
      st1.staleCount = st.staleCount + 1) :=
  ⟨fun hle => processObject_fresh isDryRun isReport del cutoff st obj lm h hle,
   fun hlt st1 hok => processObject_stale_count isDryRun isReport del cutoff st obj lm h hlt st1 hok⟩

/-- Witness for C1 at a concrete fresh record and a concrete stale
record. -/
theorem claim1_stale_classification_witness :
    processObject true false (fun _ => true) 3
      ⟨0, 0, 0, 0, []⟩ ⟨some "k", some 5, some 7⟩ = .ok ⟨0, 0, 0, 0, []⟩ ∧
    ∀ st1, processObject true false (fun _ => true) 3
      ⟨0, 0, 0, 0, []⟩ ⟨some "k", some 1, some 7⟩ = .ok st1 →
      st1.staleCount = (⟨0, 0, 0, 0, []⟩ : ScanState).staleCount + 1 :=
  ⟨(claim1_stale_classification true false (fun _ => true) 3 ⟨0, 0, 0, 0, []⟩
      ⟨some "k", some 5, some 7⟩ 5 rfl).1 (by decide),
   (claim1_stale_classification true false (fun _ => true) 3 ⟨0, 0, 0, 0, []⟩
      ⟨some "k", some 1, some 7⟩ 1 rfl).2 (by decide)⟩

/-- C2: with the report flag set, no `DeleteObject` call ever appears in
the run's trace, whatever the dry-run flag, the configuration outcome, the
delete oracle, the clock, the threshold and the listing. -/
theorem claim2_report_never_deletes (bucket : String) (isDryRun : Bool) (del : Nat → Bool)
    (now days : Int) (configErr : Option String)
    (pages : List (Except String (List S3Object))) :
    (runScan bucket isDryRun true del now days configErr pages).trace.countP
      Effect.isDeleteCall = 0 := by
  rcases configErr with _ | e
  · have hstep : ∀ (st : ScanState) (obj : S3Object),
        ((processObject isDryRun true del (cutoffOf now days) st obj).state).trace.countP
          Effect.isDeleteCall = st.trace.countP Effect.isDeleteCall := by
      intro st obj
      rw [processObject_report_trace isDryRun del (cutoffOf now days) st obj]
    have hall := runPages_state_countP isDryRun true del (cutoffOf now days)
      Effect.isDeleteCall hstep (fun _ => rfl) pages
      ⟨0, 0, 0, 0, [.scanHeader bucket (cutoffOf now days) days]⟩
    simp only [runScan]
    split
    all_goals rename_i st heq
    all_goals rw [heq] at hall
    all_goals simp only [ScanOut.trace] at hall ⊢
    · rw [summarize_countP Effect.isDeleteCall rfl (fun _ _ _ => rfl) (fun _ _ => rfl)
        (fun _ => rfl) isDryRun true st, hall]
      simp [Effect.isDeleteCall]
    · rw [hall]; simp [Effect.isDeleteCall]
    · rw [hall]; simp [Effect.isDeleteCall]
  · simp [runScan, ScanOut.trace, Effect.isDeleteCall]

/-- C3: with dry-run on and report off, no `DeleteObject` call ever
appears in the trace of a completed run, and the number of
`[DRY RUN] Would delete` lines equals the final stale count. -/
theorem claim3_dry_run_simulates (bucket : String) (del : Nat → Bool)
    (now days : Int) (configErr : Option String)
    (pages : List (Except String (List S3Object))) (st : ScanState)
    (h : runScan bucket true false del now days configErr pages = .done st) :
    st.trace.countP Effect.isDeleteCall = 0 ∧
    st.trace.countP Effect.isDryRunLine = st.staleCount := by
  rcases configErr with _ | e
  · simp only [runScan] at h
    split at h
    all_goals rename_i st2 heq
    all_goals cases h
    have hinv := runPages_inv true false del (cutoffOf now days)
      (fun s => s.trace.countP Effect.isDeleteCall = 0 ∧
        s.trace.countP Effect.isDryRunLine = s.staleCount)
      (by
        intro s s1 obj hok hP
        rcases processObject_dry_delta del (cutoffOf now days) s s1 obj hok with
          ⟨hc, ht⟩ | ⟨k, lm, mb, hc, ht⟩
        · exact ⟨by rw [ht]; exact hP.1, by rw [ht, hc]; exact hP.2⟩
        · constructor
          · rw [ht, List.countP_append, hP.1]
            simp [Effect.isDeleteCall]
          · rw [ht, List.countP_append, hP.2, hc]
            simp [Effect.isDryRunLine])
      pages ⟨0, 0, 0, 0, [.scanHeader bucket (cutoffOf now days) days]⟩ st2 heq
      (by constructor <;> simp [Effect.isDeleteCall, Effect.isDryRunLine])
    constructor
    · rw [summarize_countP Effect.isDeleteCall rfl (fun _ _ _ => rfl) (fun _ _ => rfl)
        (fun _ => rfl) true false st2]
      exact hinv.1
    · rw [summarize_countP Effect.isDryRunLine rfl (fun _ _ _ => rfl) (fun _ _ => rfl)
        (fun _ => rfl) true false st2, (summarize_counters true false st2).1]
      exact hinv.2
  · simp only [runScan] at h
    cases h

/-- Witness for C3: a two-page listing with one stale and one fresh
record, scanned in dry-run mode. -/
theorem claim3_dry_run_simulates_witness :
    (∃ st, runScan "b" true false (fun _ => true) 100 30 none
      [.ok [⟨some "old", some 10, some 2048⟩, ⟨some "new", some 95, some 4096⟩],
       .ok [⟨some "old2", some 20, none⟩]] = .done st ∧
      st.trace.countP Effect.isDeleteCall = 0 ∧
      st.trace.countP Effect.isDryRunLine = st.staleCount) := by
  refine ⟨_, rfl, claim3_dry_run_simulates "b" (fun _ => true) 100 30 none
    [.ok [⟨some "old", some 10, some 2048⟩, ⟨some "new", some 95, some 4096⟩],
     .ok [⟨some "old2", some 20, none⟩]] _ rfl⟩

/-- Any successful record step changes the byte total by exactly the
record's stale-size contribution, in every mode. -/
lemma processObject_size_delta (isDryRun isReport : Bool) (del : Nat → Bool) (cutoff : Int)
    (st : ScanState) (obj : S3Object) (st1 : ScanState)
    (hok : processObject isDryRun isReport del cutoff st obj = .ok st1) :
    st1.totalSize = st.totalSize + staleSizeContrib cutoff obj := by
  rcases obj with ⟨ko, lmo, szo⟩
  rcases lmo with _ | lm
  · simp [processObject] at hok
  · by_cases hlt : lm < cutoff
    · cases isReport
      · rcases ko with _ | k
        · cases isDryRun <;> rcases szo with _ | sz <;>
            simp [processObject, hlt] at hok
        · cases isDryRun
          · rcases szo with _ | sz <;> cases hdel : del st.delCalls <;>
              simp [processObject, hlt, hdel] at hok <;> subst hok <;>
              simp [staleSizeContrib, hlt]
          · rcases szo with _ | sz <;> simp [processObject, hlt] at hok <;> subst hok <;>
              simp [staleSizeContrib, hlt]
      · rcases szo with _ | sz <;> simp [processObject, hlt] at hok <;> subst hok <;>
          simp [staleSizeContrib, hlt]
    · simp [processObject, hlt] at hok
      subst hok
      simp [staleSizeContrib, hlt]

/-- The head record's contribution splits off the stale-size list of a
page. -/
lemma staleSizes_cons_sum (cutoff : Int) (obj : S3Object) (rest : List S3Object) :
    (staleSizes cutoff (obj :: rest)).sum
      = staleSizeContrib cutoff obj + (staleSizes cutoff rest).sum := by
  rcases obj with ⟨ko, lmo, szo⟩
  rcases lmo with _ | lm
  · simp [staleSizes, staleSizeContrib]
  · by_cases hlt : lm < cutoff
    · rcases szo with _ | sz <;> simp [staleSizes, staleSizeContrib, hlt]
    · simp [staleSizes, staleSizeContrib, hlt]

/-- Over a whole page, the byte total grows by the sum of the sizes of the
page's stale records that carry a non-null size. -/
lemma processPage_size (isDryRun isReport : Bool) (del : Nat → Bool) (cutoff : Int)
    (objs : List S3Object) : ∀ st st1 : ScanState,
    processPage isDryRun isReport del cutoff st objs = .ok st1 →
    st1.totalSize = st.totalSize + (staleSizes cutoff objs).sum := by
  induction objs with
  | nil => intro st st1 h; cases h; simp [staleSizes]
  | cons obj rest ih =>
    intro st st1 h
    simp only [processPage] at h
    cases hpr : processObject isDryRun isReport del cutoff st obj with
    | ok st2 =>
      rw [hpr] at h
      rw [ih st2 st1 h, processObject_size_delta isDryRun isReport del cutoff st obj st2 hpr,
        staleSizes_cons_sum]
      ring
    | panicked st2 => rw [hpr] at h; cases h

/-- C4: with dry-run and report both off, delete is invoked exactly once
per stale record, the deleted count never exceeds the stale count, and the
inequality is strict exactly when at least one delete call failed. -/
theorem claim4_delete_once_per_stale (bucket : String) (del : Nat → Bool)
    (now days : Int) (configErr : Option String)
    (pages : List (Except String (List S3Object))) (st : ScanState)
    (h : runScan bucket false false del now days configErr pages = .done st) :
    st.trace.countP Effect.isDeleteCall = st.staleCount ∧
    st.deletedCount ≤ st.staleCount ∧
    (st.deletedCount < st.staleCount ↔ 0 < st.trace.countP Effect.isFailedDelete) := by
  rcases configErr with _ | e
  · simp only [runScan] at h
    split at h
    all_goals rename_i st2 heq
    all_goals cases h
    have hinv := runPages_inv false false del (cutoffOf now days)
      (fun s => s.trace.countP Effect.isDeleteCall = s.staleCount ∧
        s.deletedCount + s.trace.countP Effect.isFailedDelete = s.staleCount)
      (by
        intro s s1 obj hok hP
        rcases processObject_del_delta del (cutoffOf now days) s s1 obj hok with
          ⟨hc, hd, ht⟩ | ⟨k, hc, hcase⟩
        · rw [ht, hc, hd]; exact hP
        · rcases hcase with ⟨hd, ht⟩ | ⟨hd, ht⟩
          all_goals constructor
          all_goals rw [ht, hc, List.countP_append]
          all_goals simp [Effect.isDeleteCall, Effect.isFailedDelete, List.countP_cons, hd]
          all_goals omega)
      pages ⟨0, 0, 0, 0, [.scanHeader bucket (cutoffOf now days) days]⟩ st2 heq
      (by constructor <;> simp [Effect.isDeleteCall, Effect.isFailedDelete])
    have hsum := summarize_counters false false st2
    refine ⟨?_, ?_, ?_⟩
    · rw [summarize_countP Effect.isDeleteCall rfl (fun _ _ _ => rfl) (fun _ _ => rfl)
        (fun _ => rfl) false false st2, hsum.1]
      exact hinv.1
    · rw [hsum.1, hsum.2.2]
      omega
    · rw [hsum.1, hsum.2.2, summarize_countP Effect.isFailedDelete rfl (fun _ _ _ => rfl)
        (fun _ _ => rfl) (fun _ => rfl) false false st2]
      omega
  · simp only [runScan] at h
    cases h

/-- Witness for C4: two stale records, the first delete succeeds and the
second fails, so one object is deleted out of two stale. -/
theorem claim4_delete_once_per_stale_witness :
    ∃ st, runScan "b" false false (fun n => n == 0) 100 30 none
      [.ok [⟨some "a", some 1, some 10⟩, ⟨some "c", some 2, some 20⟩]] = .done st ∧
      (st.trace.countP Effect.isDeleteCall = st.staleCount ∧
       st.deletedCount ≤ st.staleCount ∧
       (st.deletedCount < st.staleCount ↔ 0 < st.trace.countP Effect.isFailedDelete)) :=
  ⟨_, rfl, claim4_delete_once_per_stale "b" (fun n => n == 0) 100 30 none
    [.ok [⟨some "a", some 1, some 10⟩, ⟨some "c", some 2, some 20⟩]] _ rfl⟩

/-- C5: the byte total accumulates exactly the sizes of the stale records
that carry a non-null size: a stale record with no size is counted stale
but adds nothing to the byte total, and from any intermediate state a
processed page adds exactly the sum of its stale records' known sizes. -/
theorem claim5_byte_total (isDryRun isReport : Bool) (del : Nat → Bool) (cutoff : Int) :
    (∀ (st st1 : ScanState) (obj : S3Object) (lm : Int),
      obj.lastModified = some lm → lm < cutoff → obj.size = none →
      processObject isDryRun isReport del cutoff st obj = .ok st1 →
      st1.totalSize = st.totalSize ∧ st1.staleCount = st.staleCount + 1) ∧
    (∀ (st st1 : ScanState) (objs : List S3Object),
      processPage isDryRun isReport del cutoff st objs = .ok st1 →
      st1.totalSize = st.totalSize + (staleSizes cutoff objs).sum) := by
  constructor
  · intro st st1 obj lm hlm hlt hsz hok
    have h1 := processObject_size_delta isDryRun isReport del cutoff st obj st1 hok
    have h2 := processObject_stale_count isDryRun isReport del cutoff st obj lm hlm hlt st1 hok
    refine ⟨?_, h2⟩
    rcases obj with ⟨ko, lmo, szo⟩
    simp at hlm hsz
    subst hlm
    subst hsz
    rw [h1]
    simp [staleSizeContrib, hlt]
  · intro st st1 objs h
    exact processPage_size isDryRun isReport del cutoff objs st st1 h

/-- Witness for C5: a page with two stale records (one sizeless) and one
fresh record, in report mode. -/
theorem claim5_byte_total_witness :
    processPage true true (fun _ => true) 50 ⟨0, 0, 0, 0, []⟩
      [⟨some "a", some 10, some 2048⟩, ⟨some "b", some 60, some 4096⟩,
       ⟨some "c", some 20, none⟩] = .ok ⟨2, 2048, 0, 0, []⟩ ∧
    (⟨2, 2048, 0, 0, []⟩ : ScanState).totalSize
      = (⟨0, 0, 0, 0, []⟩ : ScanState).totalSize +
        (staleSizes 50 [⟨some "a", some 10, some 2048⟩, ⟨some "b", some 60, some 4096⟩,
          ⟨some "c", some 20, none⟩]).sum :=
  ⟨rfl, (claim5_byte_total true true (fun _ => true) 50).2 ⟨0, 0, 0, 0, []⟩ ⟨2, 2048, 0, 0, []⟩
    [⟨some "a", some 10, some 2048⟩, ⟨some "b", some 60, some 4096⟩,
     ⟨some "c", some 20, none⟩] rfl⟩

/-- C6: a failed delete of one stale record is non-fatal: the step
succeeds, a warning naming the key is recorded, the object is not counted
as deleted, exactly one delete call is issued (no retry), the other
accumulators advance as for any stale record, and the loop continues with
the rest of the page from the updated state. -/
theorem claim6_delete_failure_nonfatal (del : Nat → Bool) (cutoff : Int)
    (st : ScanState) (obj : S3Object) (lm : Int) (k : String)
    (hlm : obj.lastModified = some lm) (hlt : lm < cutoff) (hk : obj.key = some k)
    (hfail : del st.delCalls = false) :
    ∃ st1, processObject false false del cutoff st obj = .ok st1 ∧
      st1.deletedCount = st.deletedCount ∧
      st1.staleCount = st.staleCount + 1 ∧
      st1.totalSize = st.totalSize + staleSizeContrib cutoff obj ∧
      st1.delCalls = st.delCalls + 1 ∧
      st1.trace = st.trace ++ [.deleteCall (some k) false, .warnLine k] ∧
      ∀ rest, processPage false false del cutoff st (obj :: rest)
        = processPage false false del cutoff st1 rest := by
  rcases obj with ⟨ko, lmo, szo⟩
  simp at hlm hk
  subst hlm
  subst hk
  rcases szo with _ | sz
  · have hstep : processObject false false del cutoff st ⟨some k, some lm, none⟩ =
        .ok ⟨st.staleCount + 1, st.totalSize, st.deletedCount, st.delCalls + 1,
          st.trace ++ [.deleteCall (some k) false, .warnLine k]⟩ := by
      simp [processObject, hlt, hfail]
    refine ⟨_, hstep, rfl, rfl, ?_, rfl, rfl, fun rest => by simp only [processPage, hstep]⟩
    simp [staleSizeContrib, hlt]
  · have hstep : processObject false false del cutoff st ⟨some k, some lm, some sz⟩ =
        .ok ⟨st.staleCount + 1, st.totalSize + sz, st.deletedCount, st.delCalls + 1,
          st.trace ++ [.deleteCall (some k) false, .warnLine k]⟩ := by
      simp [processObject, hlt, hfail]
    refine ⟨_, hstep, rfl, rfl, ?_, rfl, rfl, fun rest => by simp only [processPage, hstep]⟩
    simp [staleSizeContrib, hlt]

/-- Witness for C6 at a concrete stale record whose delete fails. -/
theorem claim6_delete_failure_nonfatal_witness :
    ∃ st1, processObject false false (fun _ => false) 10
        ⟨0, 0, 0, 0, []⟩ ⟨some "a", some 1, some 5⟩ = .ok st1 ∧
      st1.deletedCount = (⟨0, 0, 0, 0, []⟩ : ScanState).deletedCount ∧
      st1.staleCount = (⟨0, 0, 0, 0, []⟩ : ScanState).staleCount + 1 ∧
      st1.totalSize = (⟨0, 0, 0, 0, []⟩ : ScanState).totalSize +
        staleSizeContrib 10 ⟨some "a", some 1, some 5⟩ ∧
      st1.delCalls = (⟨0, 0, 0, 0, []⟩ : ScanState).delCalls + 1 ∧
      st1.trace = (⟨0, 0, 0, 0, []⟩ : ScanState).trace ++
        [.deleteCall (some "a") false, .warnLine "a"] ∧
      ∀ rest, processPage false false (fun _ => false) 10 ⟨0, 0, 0, 0, []⟩
          (⟨some "a", some 1, some 5⟩ :: rest)
        = processPage false false (fun _ => false) 10 st1 rest :=
  claim6_delete_failure_nonfatal (fun _ => false) 10 ⟨0, 0, 0, 0, []⟩
    ⟨some "a", some 1, some 5⟩ 1 "a" rfl (by decide) rfl rfl

/-- A run that ends in `log.Fatalf` never got to print a summary: its
trace contains no summary line. -/
lemma runScan_fatal_no_summary (bucket : String) (isDryRun isReport : Bool)
    (del : Nat → Bool) (now days : Int) (configErr : Option String)
    (pages : List (Except String (List S3Object))) (st : ScanState)
    (h : runScan bucket isDryRun isReport del now days configErr pages = .fatal st) :
    st.trace.countP Effect.isSummaryLine = 0 := by
  rcases configErr with _ | e
  · simp only [runScan] at h
    have hall := runPages_state_countP isDryRun isReport del (cutoffOf now days)
      Effect.isSummaryLine
      (fun s obj => processObject_no_summary isDryRun isReport del (cutoffOf now days) s obj)
      (fun _ => rfl) pages
      ⟨0, 0, 0, 0, [.scanHeader bucket (cutoffOf now days) days]⟩
    split at h
    all_goals rename_i st2 heq
    all_goals cases h
    rw [heq] at hall
    simp only [ScanOut.trace] at hall
    rw [hall]
    simp [Effect.isSummaryLine]
  · simp only [runScan] at h
    cases h
    simp [Effect.isSummaryLine]

/-- C7: a failed page listing is fatal.  The loop stops at the failing
page with a diagnostic — the remaining pages are never requested, as the
result does not depend on them — and no summary of the partial results is
ever emitted on a fatal run. -/
theorem claim7_listing_failure_fatal :
    (∀ (isDryRun isReport : Bool) (del : Nat → Bool) (cutoff : Int) (st : ScanState)
        (e : String) (rest : List (Except String (List S3Object))),
      runPages isDryRun isReport del cutoff st (.error e :: rest)
        = .fatal { st with
            trace := st.trace ++ [.fatalMsg ("Failed to list objects: " ++ e)] }) ∧
    (∀ (bucket : String) (isDryRun isReport : Bool) (del : Nat → Bool) (now days : Int)
        (configErr : Option String) (pages : List (Except String (List S3Object)))
        (st : ScanState),
      runScan bucket isDryRun isReport del now days configErr pages = .fatal st →
      st.trace.countP Effect.isSummaryLine = 0) :=
  ⟨fun _ _ _ _ _ _ _ => rfl,
   fun bucket d r del now days configErr pages st h =>
     runScan_fatal_no_summary bucket d r del now days configErr pages st h⟩

/-- Witness for C7: a run whose second page listing fails aborts with the
diagnostic and emits no summary. -/
theorem claim7_listing_failure_fatal_witness :
    (⟨1, 7, 0, 0, [.scanHeader "b" 70 30, .dryRunLine "a" 1 (7 / 1024 / 1024),
        .fatalMsg "Failed to list objects: boom"]⟩ : ScanState).trace.countP
      Effect.isSummaryLine = 0 :=
  claim7_listing_failure_fatal.2 "b" true false (fun _ => true) 100 30 none
    [.ok [⟨some "a", some 1, some 7⟩], .error "boom"] _ rfl

/-- C8: the summary computes reclaimable gigabytes as the byte total
divided by `1024 ^ 3`, the estimated monthly savings as exactly that value
times the 0.023 USD/GB constant — so the two agree to four decimal
places — and the report summary line displays exactly these two
figures. -/
theorem claim8_savings_formula (totalSize : Int) :
    sizeInGB totalSize = (totalSize : ℚ) / 1024 ^ 3 ∧
    estimatedSavings totalSize = sizeInGB totalSize * (23 / 1000) ∧
    round4 (estimatedSavings totalSize) = round4 (sizeInGB totalSize * (23 / 1000)) ∧
    ∀ (isDryRun : Bool) (st : ScanState),
      (summarize isDryRun true st).trace = st.trace ++
        [.separatorLine, .reportSummary st.staleCount (sizeInGB st.totalSize)
          (estimatedSavings st.totalSize)] := by
  refine ⟨?_, rfl, rfl, ?_⟩
  · rw [sizeInGB]; ring
  · intro d st; simp [summarize]

/-- C9: a run that completes normally exits with code 0, while both fatal
failure kinds — configuration load and page listing — terminate inside the
scan with the same undistinguished exit code 1 and no summary output. -/
theorem claim9_exit_behavior :
    (∀ st : ScanState, exitCode (.done st) = 0) ∧
    (∀ (bucket : String) (isDryRun isReport : Bool) (del : Nat → Bool) (now days : Int)
        (e : String) (pages : List (Except String (List S3Object))),
      exitCode (runScan bucket isDryRun isReport del now days (some e) pages) = 1) ∧
    (∀ (bucket : String) (isDryRun isReport : Bool) (del : Nat → Bool) (now days : Int)
        (configErr : Option String) (pages : List (Except String (List S3Object)))
        (st : ScanState),
      runScan bucket isDryRun isReport del now days configErr pages = .fatal st →
      exitCode (.fatal st) = 1 ∧ st.trace.countP Effect.isSummaryLine = 0) :=
  ⟨fun _ => rfl,
   fun _ _ _ _ _ _ _ _ => rfl,
   fun bucket d r del now days configErr pages st h =>
     ⟨rfl, runScan_fatal_no_summary bucket d r del now days configErr pages st h⟩⟩

/-- Witness for C9 at a run whose only page listing fails. -/
theorem claim9_exit_behavior_witness :
    exitCode (.fatal ⟨0, 0, 0, 0, [.scanHeader "b" 70 30,
      .fatalMsg "Failed to list objects: boom"]⟩) = 1 ∧
    (⟨0, 0, 0, 0, [.scanHeader "b" 70 30, .fatalMsg "Failed to list objects: boom"]⟩ :
      ScanState).trace.countP Effect.isSummaryLine = 0 :=
  claim9_exit_behavior.2.2 "b" true false (fun _ => true) 100 30 none [.error "boom"] _ rfl

/-- A record satisfying the nil-pointer precondition is processed without
a panic. -/
lemma processObject_safe (isDryRun isReport : Bool) (del : Nat → Bool) (cutoff : Int)
    (st : ScanState) (obj : S3Object)
    (hs : recordSafe isReport cutoff obj = true) :
    ∃ st1, processObject isDryRun isReport del cutoff st obj = .ok st1 := by
  cases hres : processObject isDryRun isReport del cutoff st obj with
  | ok st1 => exact ⟨st1, rfl⟩
  | panicked st1 =>
    exfalso
    rcases obj with ⟨ko, lmo, szo⟩
    rcases lmo with _ | lm
    · simp [recordSafe] at hs
    · by_cases hlt : lm < cutoff
      · cases isReport
        · rcases ko with _ | k
          · simp [recordSafe, hlt] at hs
          · cases isDryRun <;> cases hdel : del st.delCalls <;> rcases szo with _ | sz <;>
              simp [processObject, hlt, hdel] at hres
        · rcases szo with _ | sz <;> simp [processObject, hlt] at hres
      · simp [processObject, hlt] at hres

/-- A page of records satisfying the nil-pointer precondition is processed
without a panic. -/
lemma processPage_safe (isDryRun isReport : Bool) (del : Nat → Bool) (cutoff : Int)
    (objs : List S3Object) : ∀ st : ScanState,
    objs.all (recordSafe isReport cutoff) = true →
    ∃ st1, processPage isDryRun isReport del cutoff st objs = .ok st1 := by
  induction objs with
  | nil => intro st _; exact ⟨st, rfl⟩
  | cons obj rest ih =>
    intro st hall
    simp only [List.all_cons, Bool.and_eq_true] at hall
    obtain ⟨st2, h2⟩ := processObject_safe isDryRun isReport del cutoff st obj hall.1
    obtain ⟨st3, h3⟩ := ih st2 hall.2
    exact ⟨st3, by simp only [processPage, h2, h3]⟩

/-- The pagination loop never panics when every listed record satisfies
the nil-pointer precondition. -/
lemma runPages_safe (isDryRun isReport : Bool) (del : Nat → Bool) (cutoff : Int)
    (pages : List (Except String (List S3Object))) : ∀ st : ScanState,
    (∀ p ∈ pages, pageSafe isReport cutoff p = true) →
    ∀ stp, runPages isDryRun isReport del cutoff st pages ≠ .panicked stp := by
  induction pages with
  | nil => intro st _ stp h; simp [runPages] at h
  | cons page rest ih =>
    intro st hall stp h
    cases page with
    | error e => simp [runPages] at h
    | ok objs =>
      have hp : pageSafe isReport cutoff (.ok objs) = true := hall _ (by simp)
      simp only [pageSafe] at hp
      obtain ⟨st2, h2⟩ := processPage_safe isDryRun isReport del cutoff objs st hp
      simp only [runPages, h2] at h
      exact ih st2 (fun p hp2 => hall p (by simp [hp2])) stp h

/-- C10: the scan dereferences the last-modified pointer of every record,
and the key pointer of every stale record outside report-only mode, with
no nil check; it is free of nil-pointer panics precisely under the
precondition that those pointers are non-nil (only the size field is
guarded): a nil last-modified panics at once, and a nil key on a stale
record panics in both dry-run and deletion mode. -/
theorem claim10_nil_pointer_preconditions :
    (∀ (bucket : String) (isDryRun isReport : Bool) (del : Nat → Bool) (now days : Int)
        (configErr : Option String) (pages : List (Except String (List S3Object))),
      (∀ p ∈ pages, pageSafe isReport (cutoffOf now days) p = true) →
      ∀ stp, runScan bucket isDryRun isReport del now days configErr pages
        ≠ .panicked stp) ∧
    (∀ (isDryRun isReport : Bool) (del : Nat → Bool) (cutoff : Int) (st : ScanState)
        (obj : S3Object), obj.lastModified = none →
      processObject isDryRun isReport del cutoff st obj = .panicked st) ∧
    (∀ (isDryRun : Bool) (del : Nat → Bool) (cutoff : Int) (st : ScanState)
        (obj : S3Object) (lm : Int), obj.lastModified = some lm → lm < cutoff →
      obj.key = none →
      ∃ stp, processObject isDryRun false del cutoff st obj = .panicked stp) := by
  refine ⟨?_, ?_, ?_⟩
  · intro bucket d r del now days configErr pages hsafe stp h
    rcases configErr with _ | e
    · simp only [runScan] at h
      split at h
      all_goals rename_i st2 heq
      all_goals cases h
      exact runPages_safe d r del (cutoffOf now days) pages
        ⟨0, 0, 0, 0, [.scanHeader bucket (cutoffOf now days) days]⟩ hsafe stp heq
    · simp only [runScan] at h
      cases h
  · intro d r del cutoff st obj hlm
    simp [processObject, hlm]
  · intro d del cutoff st obj lm hlm hlt hk
    cases hres : processObject d false del cutoff st obj with
    | ok st1 =>
      exfalso
      rcases obj with ⟨ko, lmo, szo⟩
      simp at hlm hk
      subst hlm
      subst hk
      cases d <;> cases hdel : del st.delCalls <;> rcases szo with _ | sz <;>
        simp [processObject, hlt, hdel] at hres
    | panicked stp => exact ⟨stp, rfl⟩

/-- Witness for C10: a listing whose records all satisfy the precondition
is scanned in deletion mode without a panic. -/
theorem claim10_nil_pointer_preconditions_witness :
    runScan "b" false false (fun _ => true) 100 30 none
      [.ok [⟨some "a", some 1, some 5⟩, ⟨none, some 99, none⟩]]
      ≠ .panicked ⟨0, 0, 0, 0, []⟩ :=
  claim10_nil_pointer_preconditions.1 "b" false false (fun _ => true) 100 30 none
    [.ok [⟨some "a", some 1, some 5⟩, ⟨none, some 99, none⟩]] (by decide) ⟨0, 0, 0, 0, []⟩

end S3Tidy
